import Mathlib

/-!
Verification of the commit-summary quality pipeline of the `goal` repository.

The definitions below are a shallow embedding of the Python sources
`src/goal/enhanced_summary.py` (class `SummaryQualityFilter`, class
`QualityValidator`, class `EnhancedSummaryGenerator`) and
`src/goal/smart_commit.py` (class `CodeAbstraction`).  Python strings are
`String`, Python lists are `List`, Python ints are `Int`/`Nat`, Python float
arithmetic on line counts is modelled with exact rationals `ℚ`, dictionaries
with fixed key sets are structures, and the one aliasing-sensitive routine
(`QualityValidator.auto_fix`) is additionally given a heap-passing embedding.
-/

namespace Goal

/-! ## String helpers (Python `in`, `str.lower`, `re.findall("[a-zA-Z]+", ...)`) -/

/-- Python's substring test `needle in hay`, on the character list of `hay`. -/
def listContainsSub (needle : List Char) : List Char → Bool
  | [] => needle.isEmpty
  | c :: rest => needle.isPrefixOf (c :: rest) || listContainsSub needle rest

/-- Python `sub in hay` on strings. -/
def containsSub (hay sub : String) : Bool :=
  listContainsSub sub.toList hay.toList

/-- Python `s.lower()` (kernel-computable form of `String.toLower`). -/
def strToLower (s : String) : String :=
  String.mk (s.toList.map Char.toLower)

/-- Python `s.endswith(suffix)`. -/
def strEndsWith (s suffix : String) : Bool :=
  suffix.toList.isSuffixOf s.toList

/-- Python `s.strip()`: drop whitespace from both ends. -/
def strTrim (s : String) : String :=
  String.mk (((s.toList.dropWhile Char.isWhitespace).reverse.dropWhile
    Char.isWhitespace).reverse)

/-- Helper for `pySplit`: split `cs` at each (non-overlapping, leftmost-first)
occurrence of the separator `sp :: sep`; `acc` is the current field, reversed.
The `fuel` argument keeps the recursion structural; each step consumes at
least one character, so `fuel = cs.length` never runs out. -/
def pySplitAux (sp : Char) (sep : List Char) : Nat → List Char → List Char → List (List Char)
  | _, [], acc => [acc.reverse]
  | 0, cs, acc => [acc.reverse ++ cs]
  | fuel + 1, c :: rest, acc =>
    if (sp :: sep).isPrefixOf (c :: rest) then
      acc.reverse :: pySplitAux sp sep fuel (rest.drop sep.length) []
    else
      pySplitAux sp sep fuel rest (c :: acc)

/-- Python `s.split(sep)` for a fixed separator: every field is kept,
including empty ones. -/
def pySplit (s sep : String) : List String :=
  match sep.toList with
  | [] => [s]
  | sp :: rest => (pySplitAux sp rest s.toList.length s.toList []).map String.mk

/-- Split at every character satisfying `p`, keeping empty fields. -/
def splitCharsAux (p : Char → Bool) : List Char → List Char → List (List Char)
  | [], acc => [acc.reverse]
  | c :: cs, acc =>
    if p c then acc.reverse :: splitCharsAux p cs []
    else splitCharsAux p cs (c :: acc)

/-- Helper for `alphaWords`: scan characters, accumulating the current run of
letters (reversed) in `acc`. -/
def alphaWordsAux : List Char → List Char → List String
  | [], acc => if acc.isEmpty then [] else [String.mk acc.reverse]
  | c :: cs, acc =>
    if c.isAlpha then alphaWordsAux cs (c :: acc)
    else if acc.isEmpty then alphaWordsAux cs []
    else String.mk acc.reverse :: alphaWordsAux cs []

/-- Python `re.findall(r"[a-zA-Z]+", s)`: the maximal runs of ASCII letters. -/
def alphaWords (s : String) : List String :=
  alphaWordsAux s.toList []

/-- Python `s.split()` with no separator: split on whitespace runs, dropping
empty fields. -/
def pyWhitespaceSplit (s : String) : List String :=
  ((splitCharsAux Char.isWhitespace s.toList []).map String.mk).filter (fun w => w != "")

/-- The text after the first `:` of a title, or the whole title when it has no
colon — Python `title.split(':', 1)[1] if ':' in title else title`
(`SummaryQualityFilter.has_banned_words`, enhanced_summary.py:115). -/
def descAfterColon (title : String) : String :=
  match title.toList.dropWhile (fun c => c ≠ ':') with
  | [] => title
  | _ :: rest => String.mk rest

/-! ## A computable lexicographic order on strings (Python `sorted`) -/

/-- Lexicographic comparison of character lists by code point, mirroring how
Python compares strings. -/
def leChars : List Char → List Char → Bool
  | [], _ => true
  | _ :: _, [] => false
  | a :: as, b :: bs =>
    if a.toNat < b.toNat then true
    else if b.toNat < a.toNat then false
    else leChars as bs

/-- Boolean string order. -/
def strLeB (a b : String) : Bool := leChars a.toList b.toList

/-- Propositional string order used for sorting. -/
def StrLe (a b : String) : Prop := strLeB a b = true

instance : DecidableRel StrLe := fun a b => instDecidableEqBool (strLeB a b) true

/-- Python `sorted(list_of_strings)`. -/
def sortStrings (l : List String) : List String :=
  l.insertionSort StrLe

/-- Python `sorted(set(l))`: deduplicate, then sort. -/
def sortedDedup (l : List String) : List String :=
  sortStrings l.dedup

/-! ## Paths (Python `pathlib.Path.name` / `.stem` / `.suffix`) -/

/-- Python `Path(f).name`: the final path component. -/
def pathName (f : String) : String :=
  (pySplit f "/").getLastD f

/-- Python `Path(f).stem`: `name[:i]` when `name.rfind('.') = i` with
`0 < i < len(name) - 1`, else `name`. -/
def pathStem (f : String) : String :=
  let name := pathName f
  let cs := name.toList
  match cs.reverse.findIdx? (fun c => c = '.') with
  | none => name
  | some j =>
    let i := cs.length - 1 - j
    if 0 < i ∧ i < cs.length - 1 then String.mk (cs.take i) else name

/-- Python `Path(f).suffix`: `name[i:]` under the same condition, else `""`. -/
def pathSuffix (f : String) : String :=
  let name := pathName f
  let cs := name.toList
  match cs.reverse.findIdx? (fun c => c = '.') with
  | none => ""
  | some j =>
    let i := cs.length - 1 - j
    if 0 < i ∧ i < cs.length - 1 then String.mk (cs.drop i) else ""

/-! ## Relations (enhanced_summary.py, `SummaryQualityFilter`) -/

/-- A dependency edge `{'from': ..., 'to': ..., 'type': ...}`.  The Python key
`from` is a Lean keyword, hence the field name `from_`. -/
structure Rel where
  from_ : String
  to_ : String
  type : String
deriving DecidableEq, BEq

/-- `SummaryQualityFilter.GENERIC_NODES` (enhanced_summary.py:44). -/
def genericNodeSet : List String :=
  ["base", "__init__", "utils", "common", "helpers", "constants",
   "types", "exceptions", "models", "schemas"]

/-- True when the edge touches a generic node name. -/
def isGenericEdge (r : Rel) : Bool :=
  genericNodeSet.contains (strToLower r.from_) || genericNodeSet.contains (strToLower r.to_)

/-- `SummaryQualityFilter.filter_generic_nodes` (enhanced_summary.py:225):
keep edges whose endpoints are both outside the blocklist. -/
def filterGenericNodes (relations : List Rel) : List Rel :=
  relations.filter (fun r =>
    !genericNodeSet.contains (strToLower r.from_) && !genericNodeSet.contains (strToLower r.to_))

/-- Loop of `SummaryQualityFilter.dedupe_relations` (enhanced_summary.py:174):
`seen` is the set of `(from, to)` pairs already kept; self-loops are dropped. -/
def dedupeRelationsAux (seen : List (String × String)) : List Rel → List Rel
  | [] => []
  | r :: rs =>
    if !seen.contains (r.from_, r.to_) && r.from_ != r.to_ then
      r :: dedupeRelationsAux ((r.from_, r.to_) :: seen) rs
    else
      dedupeRelationsAux seen rs

/-- `SummaryQualityFilter.dedupe_relations`: unique non-self-loop edges,
capped at 10 (`unique[:10]`). -/
def dedupeRelations (relations : List Rel) : List Rel :=
  (dedupeRelationsAux [] relations).take 10

/-- The relation cleaning done by `generate_enhanced_summary`
(enhanced_summary.py:977-979): dedupe/cap first, then drop generic nodes. -/
def pipelineCleanRelations (relations : List Rel) : List Rel :=
  filterGenericNodes (dedupeRelations relations)

/-- The relation cleaning done by `QualityValidator.auto_fix`
(enhanced_summary.py:547-552): drop generic nodes first, then dedupe/cap. -/
def autoFixCleanRelations (relations : List Rel) : List Rel :=
  dedupeRelations (filterGenericNodes relations)

/-- `SummaryQualityFilter.dedupe_files` (enhanced_summary.py:185): drop files
whose basename was already seen, preserving order. -/
def dedupeFilesAux (seen : List String) : List String → List String
  | [] => []
  | f :: fs =>
    let fname := pathName f
    if seen.contains fname then dedupeFilesAux seen fs
    else f :: dedupeFilesAux (fname :: seen) fs

/-- `SummaryQualityFilter.dedupe_files`. -/
def dedupeFiles (files : List String) : List String :=
  dedupeFilesAux [] files

/-! ## Intent classification (`SummaryQualityFilter.classify_intent_smart`) -/

/-- `REFACTOR_PATTERNS` (enhanced_summary.py:64), lowercased: every pattern is
a literal, searched case-insensitively. -/
def refactorPatterns : List String :=
  ["analyzer", "deep_", "enhanced_", "ast", "refactor",
   "restructure", "reorganize", "simplif", "clean",
   "framework", "intelligence", "git_"]

/-- `FEAT_PATTERNS` (enhanced_summary.py:69). -/
def featPatterns : List String :=
  ["new_", "initial", "support", "implement", "create"]

/-- `FIX_PATTERNS` (enhanced_summary.py:72). -/
def fixPatterns : List String :=
  ["fix", "bug", "issue", "error", "patch", "hotfix"]

/-- `f.endswith('.md') or 'doc' in f.lower()` (enhanced_summary.py:294). -/
def isDocsFile (f : String) : Bool :=
  strEndsWith f ".md" || containsSub (strToLower f) "doc"

/-- `f.endswith(('.yaml', '.toml', '.json', '.ini'))` (enhanced_summary.py:298). -/
def isConfigFile (f : String) : Bool :=
  strEndsWith f ".yaml" || strEndsWith f ".toml" || strEndsWith f ".json" || strEndsWith f ".ini"

/-- `deletion_pct = (deleted / churn_total) * 100 if churn_total else 0`
(enhanced_summary.py:275). -/
def deletionPct (added deleted : Int) : ℚ :=
  if added + deleted = 0 then 0 else ((deleted : ℚ) / ((added + deleted : Int) : ℚ)) * 100

/-- Python `max(scores, key=scores.get)` over the dict
`{'refactor': r, 'feat': f, 'fix': x}`: the first key holding the maximum, in
insertion order. -/
def pickMaxIntent (r f x : Nat) : String :=
  if f ≤ r ∧ x ≤ r then "refactor"
  else if x ≤ f then "feat"
  else "fix"

/-- `SummaryQualityFilter.classify_intent_smart` (enhanced_summary.py:267-308).
`entities` is the list of entity names (Python reads `e.get('name', '')`). -/
def classifyIntentSmart (files : List String) (entities : List String)
    (added deleted : Int) : String :=
  let combined := String.intercalate " " files ++ " " ++ String.intercalate " " entities
  let net := added - deleted
  let pct := deletionPct added deleted
  if 1000 ≤ deleted then "refactor"
  else if 250 ≤ deleted ∧ 20 ≤ pct then "refactor"
  else if net < -100 then "refactor"
  else
    let cl := strToLower combined
    let refactorScore := (refactorPatterns.countP (fun p => containsSub cl p)) +
      (if 10 < files.length ∧ net < 0 then 3 else 0)
    let featScore := featPatterns.countP (fun p => containsSub cl p)
    let fixScore := fixPatterns.countP (fun p => containsSub cl p)
    if files.all isDocsFile then "docs"
    else if files.all isConfigFile then "chore"
    else if refactorScore = 0 ∧ featScore = 0 ∧ fixScore = 0 then
      (if net ≤ 0 then "refactor" else "feat")
    else if 100 ≤ deleted ∧ featScore ≤ refactorScore ∧ fixScore ≤ refactorScore then
      "refactor"
    else pickMaxIntent refactorScore featScore fixScore

/-! ## Banned words (`SummaryQualityFilter.has_banned_words`) -/

/-- `SummaryQualityFilter.BANNED_TITLE_WORDS` (enhanced_summary.py:36). -/
def bannedTitleWords : List String :=
  ["add", "logging", "testing", "performance", "update",
   "improve", "fix", "misc", "various", "some", "stuff",
   "formatting", "auth", "validation", "changes", "updates",
   "modifications", "enhancements", "tweaks", "adjustments"]

/-- `SummaryQualityFilter.has_banned_words` (enhanced_summary.py:111-117):
whole-word, case-insensitive search restricted to the description segment
after the first `:`; the result is returned sorted. -/
def hasBannedWords (banned : List String) (title : String) : List String :=
  let desc := descAfterColon title
  let descWords := alphaWords (strToLower desc)
  sortStrings (banned.filter (fun w => descWords.contains w))

/-! ## File categorization (`SummaryQualityFilter.categorize_files`) -/

/-- `SummaryQualityFilter.DOMAIN_PATTERNS` (enhanced_summary.py:50), with each
regex transcribed: all are literal substrings except `analy[sz]` (two
alternatives), `\.md$` (suffix) and the literal `test_`/`_test`. -/
def domainPatternTable : List (String × (String → Bool)) :=
  [("analyzer", fun s => containsSub s "analys" || containsSub s "analyz" ||
      containsSub s "parse" || containsSub s "scan" || containsSub s "inspect"),
   ("cli", fun s => containsSub s "cli" || containsSub s "command" || containsSub s "arg"),
   ("api", fun s => containsSub s "api" || containsSub s "endpoint" ||
      containsSub s "route" || containsSub s "handler"),
   ("model", fun s => containsSub s "model" || containsSub s "schema" ||
      containsSub s "entity"),
   ("service", fun s => containsSub s "service" || containsSub s "manager" ||
      containsSub s "provider"),
   ("util", fun s => containsSub s "util" || containsSub s "helper" || containsSub s "tool"),
   ("config", fun s => containsSub s "config" || containsSub s "setting" ||
      containsSub s "option"),
   ("test", fun s => containsSub s "test_" || containsSub s "_test" || containsSub s "spec"),
   ("docs", fun s => strEndsWith s ".md" || containsSub s "readme" || containsSub s "doc"),
   ("quality", fun s => containsSub s "quality" || containsSub s "metric" ||
      containsSub s "coverage" || containsSub s "dependen")]

/-- The category a single file lands in: first matching domain pattern, else
the fallback of enhanced_summary.py:212-221. -/
def categoryOf (f : String) : String :=
  let fname := strToLower f
  match domainPatternTable.find? (fun dp => dp.2 fname) with
  | some dp => dp.1
  | none =>
    if strEndsWith fname ".md" then "docs"
    else if strEndsWith fname ".yaml" || strEndsWith fname ".yml" ||
        strEndsWith fname ".toml" || strEndsWith fname ".json" ||
        strEndsWith fname ".ini" then "config"
    else if containsSub fname "test" then "test"
    else "core"

/-- Append `f` under key `k` in an insertion-ordered association list,
mirroring `defaultdict(list)` update order. -/
def insertCat (cats : List (String × List String)) (k f : String) :
    List (String × List String) :=
  match cats with
  | [] => [(k, [f])]
  | (k2, fs) :: rest =>
    if k2 == k then (k2, fs ++ [f]) :: rest else (k2, fs) :: insertCat rest k f

/-- `SummaryQualityFilter.categorize_files` (enhanced_summary.py:196-223),
including the final `{k: v for k, v in categories.items() if v}`. -/
def categorizeFiles (files : List String) : List (String × List String) :=
  (files.foldl (fun cats f => insertCat cats (categoryOf f) f) []).filter
    (fun kv => !kv.2.isEmpty)

/-- Dict lookup `categories.get(k)`. -/
def lookupCat (cats : List (String × List String)) (k : String) : Option (List String) :=
  (cats.find? (fun kv => kv.1 == k)).map (fun kv => kv.2)

/-- Python `max(categories.items(), key=lambda x: len(x[1]))`: the first item
attaining the maximum, in dict order. -/
def dominantCategory : List (String × List String) → Option (String × List String)
  | [] => none
  | c :: rest =>
    some (rest.foldl (fun best kv => if best.2.length < kv.2.length then kv else best) c)

/-- `SummaryQualityFilter.generate_architecture_title`
(enhanced_summary.py:310-332); Python implicitly returns `None` when no branch
fires. -/
def generateArchitectureTitle (files : List String)
    (categories : List (String × List String)) : Option String :=
  let stems := files.map (fun f => strToLower (pathStem f))
  if stems.any (fun s => containsSub s "analyzer" || containsSub s "analysis") then
    some (if 10 < files.length then "complete analysis framework"
          else "analysis engine improvements")
  else if stems.any (fun s => containsSub s "git") then
    some "git integration framework"
  else if (match lookupCat categories "cli" with
           | some l => decide (2 < l.length)
           | none => false) then
    some "CLI interface overhaul"
  else if (lookupCat categories "api").isSome then
    some "API layer enhancements"
  else
    match dominantCategory categories with
    | some kv => some (kv.1 ++ " module improvements")
    | none => none

/-! ## Conventional-title parsing -/

/-- `\w` for ASCII input. -/
def isWordChar (c : Char) : Bool := c.isAlphanum || c == '_'

/-- Python `re.match(r'^(\w+)\(([^)]*)\):\s*(.*)$', title)`, returning
(type, scope, description) (enhanced_summary.py:530). -/
def parseConventionalTitle (title : String) : Option (String × String × String) :=
  let cs := title.toList
  let ty := cs.takeWhile isWordChar
  if ty.isEmpty then none
  else
    match cs.drop ty.length with
    | '(' :: rest1 =>
      let scope := rest1.takeWhile (fun c => c ≠ ')')
      (match rest1.drop scope.length with
       | ')' :: ':' :: rest2 =>
         some (String.mk ty, String.mk scope,
               String.mk (rest2.dropWhile Char.isWhitespace))
       | _ => none)
    | _ => none

/-- Python `re.match(r'^(\w+)\([^)]*\):', title)` used to recover the intent
from the title (enhanced_summary.py:386): just the type token. -/
def titleTypeToken (title : String) : Option String :=
  (parseConventionalTitle title).map (fun t => t.1)

/-- Python `re.search(r'\(([^)]+)\)', title)` (enhanced_summary.py:517): the
first parenthesized non-empty segment. -/
def extractScopeAux : List Char → Option String
  | [] => none
  | '(' :: rest =>
    let inner := rest.takeWhile (fun c => c ≠ ')')
    if inner.isEmpty then extractScopeAux rest
    else
      match rest.drop inner.length with
      | ')' :: _ => some (String.mk inner)
      | _ => extractScopeAux rest
  | _ :: rest => extractScopeAux rest

/-- See `extractScopeAux`. -/
def extractScope (title : String) : Option String :=
  extractScopeAux title.toList

/-! ## NET-lines formatting (`SummaryQualityFilter.format_net_lines`) -/

/-- Round-to-nearest with ties to even, the rounding Python's `"{:.0f}"`
applies (up to binary-float representation of the exact rational). -/
def rhRound (q : ℚ) : Int :=
  let f := q.floor
  let frac := q - f
  if 1/2 < frac then f + 1
  else if frac < 1/2 then f
  else if f % 2 = 0 then f else f + 1

/-- Render a percentage as in `f"{pct:.0f}"`. -/
def fmtQ0 (q : ℚ) : String := toString (rhRound q)

/-- `SummaryQualityFilter.format_net_lines` (enhanced_summary.py:233-265). -/
def formatNetLines (added deleted : Int) : String × String :=
  let net := added - deleted
  let total := added + deleted
  if total = 0 then ("➡️", "No line changes")
  else
    let pct : ℚ := if total = 0 then 0 else ((deleted : ℚ) / ((total : Int) : ℚ)) * 100
    if 0 < deleted ∧ 10 ≤ pct then
      if 250 ≤ deleted ∧ 20 ≤ pct then
        ("📉", fmtQ0 pct ++ "% code reduction (-" ++ toString deleted ++
          " lines refactored, +" ++ toString added ++ "/-" ++ toString deleted ++
          ", NET " ++ toString net ++ ")")
      else if net < 0 then
        ("📉", "+" ++ toString added ++ "/-" ++ toString deleted ++ " lines (NET " ++
          toString net ++ ", " ++ fmtQ0 pct ++ "% churn deletions)")
      else if 250 ≤ deleted then
        ("📉", "+" ++ toString added ++ "/-" ++ toString deleted ++ " lines (NET +" ++
          toString net ++ ", " ++ fmtQ0 pct ++ "% churn deletions)")
      else
        ("📊", "+" ++ toString added ++ "/-" ++ toString deleted ++ " lines (NET +" ++
          toString net ++ ", " ++ fmtQ0 pct ++ "% churn deletions)")
    else if net < 0 then
      ("📉", "+" ++ toString added ++ "/-" ++ toString deleted ++ " lines (NET " ++
        toString net ++ ")")
    else if 100 < net then
      ("📈", "+" ++ toString added ++ "/-" ++ toString deleted ++ " lines (NET +" ++
        toString net ++ ")")
    else if 0 < net then
      ("📊", "+" ++ toString added ++ "/-" ++ toString deleted ++ " lines (NET +" ++
        toString net ++ ")")
    else
      ("➡️", "+" ++ toString added ++ "/-" ++ toString deleted ++ " lines (NET " ++
        toString net ++ ")")

/-! ## Capabilities -/

/-- A capability entry `{'id', 'capability', 'impact'}`. -/
structure Capability where
  id : String
  capability : String
  impact : String
deriving DecidableEq, BEq

/-- `SummaryQualityFilter.CAPABILITY_PRIORITY` (enhanced_summary.py:77). -/
def capabilityPriorityTable : List (String × Nat) :=
  [("ast_analysis", 10), ("deep_analyzer", 10), ("enhanced_summary", 9),
   ("quality_metrics", 8), ("multi_language", 7), ("dependency_graph", 6),
   ("cli_interface", 5), ("output_formatting", 4), ("config_system", 3),
   ("changelog", 2)]

/-- `CAPABILITY_PRIORITY.get(cap_id, 0)`. -/
def capPriority (c : Capability) : Nat :=
  (((capabilityPriorityTable.find? (fun kv => kv.1 == c.id)).map (fun kv => kv.2)).getD 0)

/-- Stable descending insertion, matching Python's stable
`sorted(key=..., reverse=True)`. -/
def insertByPriorityDesc (a : Capability) : List Capability → List Capability
  | [] => [a]
  | b :: bs =>
    if capPriority a < capPriority b then b :: insertByPriorityDesc a bs
    else a :: b :: bs

/-- `SummaryQualityFilter.prioritize_capabilities` (enhanced_summary.py:142). -/
def prioritizeCapabilities (l : List Capability) : List Capability :=
  l.foldr insertByPriorityDesc []

/-! ## The Summary object -/

/-- The `metrics` sub-dict of a summary; every key may be absent, matching the
`metrics.get(..., default)` accesses of `QualityValidator.validate`. -/
structure Metrics where
  linesAdded : Option Int := none
  linesDeleted : Option Int := none
  oldComplexity : Option Int := none
  newComplexity : Option Int := none
  valueScore : Option Int := none
deriving DecidableEq

/-- The `relations` sub-dict built by `detect_file_relations`. -/
structure RelDict where
  relations : List Rel := []
  chain : String := ""
  domains : List (String × String) := []
  ascii : String := ""
deriving DecidableEq

/-- The `net_lines` dict attached by `auto_fix` step 5. -/
structure NetLines where
  added : Int
  deleted : Int
  net : Int
  emoji : String
  desc : String
deriving DecidableEq

/-- One entry of the `applied_fixes` log of `auto_fix`; payloads carry the
data interpolated into the Python log strings. -/
inductive AppliedFix where
  | fixedTitle (banned : List String) (archTitle : String)
  | fixedIntent (oldIntent newIntent : String)
  | cleanedRelations (oldCount newCount genericRemoved : Nat)
  | dedupedFiles (oldCount newCount : Nat)
  | reorderedCapabilities
  | addedNetLines (desc : String)
  | categorized (counts : List (Nat × String))
deriving DecidableEq

/-- The top-level summary dict minus its `relations` entry (which is a nested
mutable dict and is modelled separately where aliasing matters).
`analysisEntities` holds `summary['analysis']['aggregated']['added_entities']`
names. -/
structure SummaryCore where
  title : String := ""
  intent : Option String := none
  body : String := ""
  capabilities : List Capability := []
  metrics : Metrics := {}
  analysisEntities : List String := []
  netLines : Option NetLines := none
  categories : Option (List (String × List String)) := none
  appliedFixes : Option (List AppliedFix) := none
deriving DecidableEq

/-- A summary value with its relations dict inline (the pure view). -/
structure Summary extends SummaryCore where
  relations : RelDict := {}
deriving DecidableEq

/-- A summary object whose `relations` entry is a reference into a heap of
relation dicts — the representation used to model Python aliasing. -/
structure SummaryObj extends SummaryCore where
  relAddr : Nat
deriving DecidableEq

/-! ## QualityValidator configuration -/

/-- The configuration knobs resolved by `QualityValidator.__init__`
(enhanced_summary.py:347-368), with the documented defaults.
`minUniqueFilesFrac` is the gate `min_unique_files_ratio = 0.8`. -/
structure QVConfig where
  minValueWords : Nat := 3
  maxGenericTerms : Nat := 0
  requiredMetrics : Nat := 2
  genericTerms : Option (List String) := none
  minValueScore : Option Int := none
  maxComplexityPercent : Int := 200
  maxDuplicateRelations : Nat := 0
  minUniqueFilesFrac : ℚ := 4 / 5
  minCapabilities : Nat := 1
  maxBannedWords : Nat := 0

/-- `__init__` extends `BANNED_TITLE_WORDS` with the configured
`generic_terms` (lowercased) when that list is present and non-empty
(enhanced_summary.py:360-362). -/
def effectiveBannedWords (cfg : QVConfig) : List String :=
  match cfg.genericTerms with
  | some ts => if ts.isEmpty then bannedTitleWords
               else (bannedTitleWords ++ ts.map strToLower).dedup
  | none => bannedTitleWords

/-! ## Validation result -/

/-- One validation error, tagged by the gate that produced it; payloads carry
the data interpolated into the Python error strings. -/
inductive GateError where
  | bannedWords (ws : List String)
  | genericTerms (n : Nat)
  | titleTooShort (n : Nat)
  | wrongIntent
  | hiddenRefactor
  | duplicateRelations (n : Nat)
  | genericNodes (n : Nat)
  | duplicateFiles (n : Nat)
  | tooFewCapabilities (n : Nat)
  | missingMetrics (n : Nat)
  | lowValueScore (v : Int)
deriving DecidableEq

/-- One validation warning. -/
inductive GateWarning where
  | complexityHigh (pct : ℚ)
deriving DecidableEq

/-- One suggested fix, mirroring the `(kind, detail)` tuples appended to
`fixes`. -/
inductive FixHint where
  | removeBannedWords (ws : List String)
  | reduceGenericTerms (n : Nat)
  | expandTitle (n : Nat)
  | reclassifyIntent
  | fixHiddenRefactor (d : Int)
  | normalizeComplexity (pct : ℚ)
  | dedupeRelationsHint (n : Nat)
  | filterGenericNodesHint (n : Nat)
  | dedupeFilesHint (n : Nat)
  | addCapabilities (n : Nat)
  | exposeMetrics (n : Nat)
  | raiseValueScore (v : Int)
deriving DecidableEq

/-- The dict returned by `QualityValidator.validate`. -/
structure ValidationResult where
  valid : Bool
  errors : List GateError
  warnings : List GateWarning
  fixes : List FixHint
  score : Int
deriving DecidableEq

/-- The final assembly of `validate` (enhanced_summary.py:486-498):
`score = max(0, min(100, 100 - 20*len(errors) - 5*len(warnings)))` and
`valid = (len(errors) == 0)`. -/
def mkValidationResult (errors : List GateError) (warnings : List GateWarning)
    (fixes : List FixHint) : ValidationResult :=
  { valid := errors.isEmpty
    errors := errors
    warnings := warnings
    fixes := fixes
    score := max 0 (min 100 (100 - 20 * (errors.length : Int) - 5 * (warnings.length : Int))) }

/-- `metric_keywords` of gate 6 (enhanced_summary.py:472). -/
def metricKeywords : List String :=
  ["NET", "Relations:", "Test coverage", "score", "%", "deletions"]

/-- `QualityValidator.validate` (enhanced_summary.py:370-498).  Each `let eN`
is one gate, contributing `(errors, fixes)` in source order; only gate 2
contributes a warning.  The `try/except` around gate 1b never fires in this
typed model, so the gate is embedded without it. -/
def validate (cfg : QVConfig) (s : Summary) (files : List String) : ValidationResult :=
  let title := s.title
  let relations := s.relations.relations
  let intentR : Option String :=
    if (s.intent = none ∨ s.intent = some "") ∧ title ≠ "" then
      match titleTypeToken title with
      | some t => some t
      | none => s.intent
    else s.intent
  let added := s.metrics.linesAdded.getD 0
  let deleted := s.metrics.linesDeleted.getD 0
  -- 1. banned words
  let banned := hasBannedWords (effectiveBannedWords cfg) title
  let e1 := if banned ≠ [] then
      ([GateError.bannedWords banned], [FixHint.removeBannedWords banned])
    else ([], [])
  -- 1a. generic-term count in the description
  let descW := alphaWords (strToLower (descAfterColon title))
  let e1a := match cfg.genericTerms with
    | some ts =>
      if ts.isEmpty then ([], [])
      else
        let n := ts.countP (fun t => descW.contains (strToLower t))
        if cfg.maxGenericTerms < n then
          ([GateError.genericTerms n], [FixHint.reduceGenericTerms n])
        else ([], [])
    | none => ([], [])
  -- 1c. minimum value words
  let wc := descW.length
  let e1c := if wc < cfg.minValueWords then
      ([GateError.titleTooShort wc], [FixHint.expandTitle wc])
    else ([], [])
  -- 1b. intent vs churn
  let smart := classifyIntentSmart files s.analysisEntities added deleted
  let e1b1 := if intentR = some "feat" ∧ smart = "refactor" then
      ([GateError.wrongIntent], [FixHint.reclassifyIntent])
    else ([], [])
  let e1b2 := if (intentR = some "feat" ∨ intentR = some "fix") ∧
      250 ≤ deleted ∧ smart = "refactor" then
      ([GateError.hiddenRefactor], [FixHint.fixHiddenRefactor deleted])
    else ([], [])
  -- 2. complexity warning
  let oldC := s.metrics.oldComplexity.getD 1
  let newC := s.metrics.newComplexity.getD oldC
  let dpct : ℚ := |(((newC - oldC : Int) : ℚ) / ((oldC : Int) : ℚ)) * 100|
  let w2 := if 0 < oldC ∧ (cfg.maxComplexityPercent : ℚ) < dpct then
      ([GateWarning.complexityHigh dpct], [FixHint.normalizeComplexity dpct])
    else ([], [])
  -- 3. duplicate relations
  let dups := relations.length - (dedupeRelations relations).length
  let e3 := if cfg.maxDuplicateRelations < dups then
      ([GateError.duplicateRelations dups], [FixHint.dedupeRelationsHint dups])
    else ([], [])
  -- 3b. generic nodes
  let gn := relations.length - (filterGenericNodes relations).length
  let e3b := if 1 < gn then
      ([GateError.genericNodes gn], [FixHint.filterGenericNodesHint gn])
    else ([], [])
  -- 4. duplicate files
  let uniq := dedupeFiles files
  let e4 := if files.length ≠ 0 ∧
      ((uniq.length : ℚ) / ((files.length : Int) : ℚ)) < cfg.minUniqueFilesFrac then
      ([GateError.duplicateFiles (files.length - uniq.length)],
       [FixHint.dedupeFilesHint (files.length - uniq.length)])
    else ([], [])
  -- 5. capability count
  let e5 := if s.capabilities.length < cfg.minCapabilities then
      ([GateError.tooFewCapabilities s.capabilities.length],
       [FixHint.addCapabilities s.capabilities.length])
    else ([], [])
  -- 6. metrics exposed in the body
  let e6 := if s.body ≠ "" then
      let mc := metricKeywords.countP
        (fun kw => containsSub (strToLower s.body) (strToLower kw))
      if mc < cfg.requiredMetrics then
        ([GateError.missingMetrics mc], [FixHint.exposeMetrics mc])
      else ([], [])
    else ([], [])
  -- 7. minimum value score
  let e7 := match cfg.minValueScore, s.metrics.valueScore with
    | some m, some v => if v < m then
        ([GateError.lowValueScore v], [FixHint.raiseValueScore v])
      else ([], [])
    | _, _ => ([], [])
  mkValidationResult
    (e1.1 ++ e1a.1 ++ e1c.1 ++ e1b1.1 ++ e1b2.1 ++ e3.1 ++ e3b.1 ++ e4.1 ++
      e5.1 ++ e6.1 ++ e7.1)
    w2.1
    (e1.2 ++ e1a.2 ++ e1c.2 ++ e1b1.2 ++ e1b2.2 ++ w2.2 ++ e3.2 ++ e3b.2 ++
      e4.2 ++ e5.2 ++ e6.2 ++ e7.2)

/-! ## QualityValidator.auto_fix -/

/-- The computational core of `QualityValidator.auto_fix`
(enhanced_summary.py:500-585), acting on the summary minus its nested
relations dict, plus that dict's relation list.  Returns the updated
core fields and the cleaned relation list that the Python code writes back
into the (shared) nested dict. -/
def autoFixCore (cfg : QVConfig) (s : SummaryCore) (rels : List Rel)
    (files : List String) (added deleted : Int) : SummaryCore × List Rel :=
  let categories := categorizeFiles files
  -- 1. banned words: regenerate an architecture-aware title
  let banned := hasBannedWords (effectiveBannedWords cfg) s.title
  let step1 :=
    if banned ≠ [] then
      let archTitle := match generateArchitectureTitle files categories with
        | some t => t
        | none => "None"
      let scope := (extractScope s.title).getD "core"
      let intent := classifyIntentSmart files s.analysisEntities added deleted
      ({ s with title := intent ++ "(" ++ scope ++ "): " ++ archTitle,
                intent := some intent },
       [AppliedFix.fixedTitle banned archTitle])
    else (s, [])
  let s1 := step1.1
  -- 1b. fix a wrong intent even without banned words
  let step2 :=
    match parseConventionalTitle s1.title with
    | some (cur, scope, desc) =>
      let smart := classifyIntentSmart files s.analysisEntities added deleted
      if cur ≠ smart ∧ smart = "refactor" then
        ({ s1 with title := smart ++ "(" ++ scope ++ "): " ++ desc,
                   intent := some smart },
         [AppliedFix.fixedIntent cur smart])
      else (s1, [])
    | none => (s1, [])
  let s2 := step2.1
  -- 2. clean relations: generic-node filter, then dedupe (written back into
  -- the shared nested dict by the callers below)
  let cleaned := autoFixCleanRelations rels
  let log3 := if rels.length ≠ cleaned.length then
      [AppliedFix.cleanedRelations rels.length cleaned.length
        (rels.length - (filterGenericNodes rels).length)]
    else []
  -- 3. dedupe files (log only; the list itself is a parameter)
  let uniq := dedupeFiles files
  let log4 := if files.length ≠ uniq.length then
      [AppliedFix.dedupedFiles files.length uniq.length]
    else []
  -- 4. reorder capabilities
  let s3 := { s2 with capabilities := prioritizeCapabilities s2.capabilities }
  -- 5. NET lines
  let step5 :=
    if added ≠ 0 ∨ deleted ≠ 0 then
      let nl := formatNetLines added deleted
      ({ s3 with netLines := some ⟨added, deleted, added - deleted, nl.1, nl.2⟩ },
       [AppliedFix.addedNetLines nl.2])
    else (s3, [])
  let s4 := step5.1
  -- 6. categorization
  let s5 := { s4 with categories := some categories }
  let log7 := [AppliedFix.categorized (categories.map (fun kv => (kv.2.length, kv.1)))]
  ({ s5 with appliedFixes := some (step1.2 ++ step2.2 ++ log3 ++ log4 ++
      [AppliedFix.reorderedCapabilities] ++ step5.2 ++ log7) },
   cleaned)

/-- `QualityValidator.auto_fix` as a pure value transformer (the view that
ignores aliasing): the cleaned relation list replaces the one in the nested
dict. -/
def autoFix (cfg : QVConfig) (s : Summary) (files : List String)
    (added deleted : Int) : Summary :=
  let res := autoFixCore cfg s.toSummaryCore s.relations.relations files added deleted
  { toSummaryCore := res.1, relations := { s.relations with relations := res.2 } }

/-- `QualityValidator.auto_fix` with Python's object graph made explicit:
summaries live in a heap `sh`, relation dicts in a heap `rh`.
`fixed = summary.copy()` allocates a fresh top-level dict at `freshAddr`
sharing the `relations` reference of the original, and
`fixed['relations']['relations'] = ...` updates the shared dict in place. -/
def autoFixAlloc (cfg : QVConfig) (origAddr freshAddr : Nat)
    (sh : Nat → SummaryObj) (rh : Nat → RelDict) (files : List String)
    (added deleted : Int) : (Nat → SummaryObj) × (Nat → RelDict) :=
  let s := sh origAddr
  let rd := rh s.relAddr
  let res := autoFixCore cfg s.toSummaryCore rd.relations files added deleted
  (fun a => if a = freshAddr then { toSummaryCore := res.1, relAddr := s.relAddr }
            else sh a,
   fun a => if a = s.relAddr then { rd with relations := res.2 } else rh a)

/-! ## Relation chain and ASCII rendering (`EnhancedSummaryGenerator`) -/

/-- The target set `adj[s]` of `_build_relation_chain`
(enhanced_summary.py:811-813), represented canonically as a sorted
duplicate-free list — Python's `sorted(...)` of the set is taken before any
element is used. -/
def adjTargets (relations : List Rel) (s : String) : List String :=
  sortedDedup ((relations.filter (fun r => r.from_ == s)).map (fun r => r.to_))

/-- The `while adj[current] - visited:` walk of `_build_relation_chain`
(enhanced_summary.py:826-833); `sorted(adj[current] - visited)[0]` is the
head of the sorted target list with visited nodes filtered out.  Each
iteration visits a fresh target, so `fuel = relations.length` suffices to run
the Python loop to completion. -/
def chainWalk (adj : String → List String) :
    Nat → String → List String → List String → List String
  | 0, _, _, acc => acc.reverse
  | fuel + 1, current, visited, acc =>
    match (adj current).filter (fun t => !visited.contains t) with
    | [] => acc.reverse
    | next :: _ => chainWalk adj fuel next (next :: visited) (next :: acc)

/-- The roots computed by `_build_relation_chain` (enhanced_summary.py:816-821):
`roots = all_sources - all_targets`, falling back to `all_sources` when empty.
The set is represented canonically sorted; Python enumerates it in hash
order, which this embedding exposes as the explicit `rootOrder` argument of
`buildRelationChain`. -/
def rootsOf (relations : List Rel) : List String :=
  let sources := sortedDedup (relations.map (fun r => r.from_))
  let targets := sortedDedup (relations.map (fun r => r.to_))
  let rts := sources.filter (fun s => !targets.contains s)
  if rts.isEmpty then sources else rts

/-- `EnhancedSummaryGenerator._build_relation_chain`
(enhanced_summary.py:805-836), parameterized by the order `rootOrder` in
which Python's `for root in roots:` enumerates the roots set. -/
def buildRelationChain (relations : List Rel) (rootOrder : List String) : String :=
  if relations.isEmpty then ""
  else
    let adj := adjTargets relations
    String.intercalate ", " (rootOrder.map (fun root =>
      String.intercalate "→" (chainWalk adj relations.length root [root] [root])))

/-- The lines printed per source by `_render_relations_ascii`
(enhanced_summary.py:850-858). -/
def asciiLinesFor (source : String) (targets : List String) : List String :=
  match targets with
  | [] => []
  | [t] => [source ++ ".py → " ++ t ++ ".py"]
  | t0 :: t1 :: more =>
    let pad := String.mk (List.replicate (source.length + 4) ' ')
    let restT := t1 :: more
    [source ++ ".py ──┬──> " ++ t0 ++ ".py"] ++
      restT.dropLast.map (fun t => pad ++ "├──> " ++ t ++ ".py") ++
      [pad ++ "└──> " ++ restT.getLastD t0 ++ ".py"]

/-- `EnhancedSummaryGenerator._render_relations_ascii`
(enhanced_summary.py:838-860): group targets by source with set semantics,
iterate sources sorted, targets sorted.  The `files` parameter is unused by
the Python body as well. -/
def renderRelationsAscii (relations : List Rel) (_files : List String) : String :=
  if relations.isEmpty then ""
  else
    String.intercalate "\n"
      (((sortedDedup (relations.map (fun r => r.from_))).map
        (fun s => asciiLinesFor s (adjTargets relations s))).flatten)

/-! ## Entity extraction (`CodeAbstraction`, smart_commit.py) -/

/-- Python `s.startswith(p)`. -/
def strStartsWith (s p : String) : Bool :=
  p.toList.isPrefixOf s.toList

/-- Python `s[n:]` for a character count `n`. -/
def strDrop (s : String) (n : Nat) : String :=
  String.mk (s.toList.drop n)

/-- `CodeAbstraction.EXTENSION_TO_LANGUAGE` (smart_commit.py:14). -/
def extensionToLanguage : List (String × String) :=
  [(".py", "python"), (".js", "javascript"), (".jsx", "javascript"),
   (".ts", "typescript"), (".tsx", "typescript"), (".rs", "rust"),
   (".go", "go"), (".md", "markdown"), (".rst", "markdown")]

/-- `CodeAbstraction.get_language` (smart_commit.py:57). -/
def getLanguage (filepath : String) : String :=
  (((extensionToLanguage.find?
      (fun kv => kv.1 == strToLower (pathSuffix filepath))).map
    (fun kv => kv.2)).getD "unknown")

/-- One per-language parser table from `config['code_parsers']`: `extract`
substrings, `ignore` substrings, and the `entity_pattern` regex modelled as
the function line ↦ captured group 1 (`none` models the empty pattern, which
sends Python to the fallback word extraction). -/
structure ParserCfg where
  extract : List String := []
  ignore : List String := []
  entityMatch : Option (String → Option String) := none

/-- `self.code_parsers.get(language, {})`. -/
def lookupParser (parsers : List (String × ParserCfg)) (lang : String) : ParserCfg :=
  (((parsers.find? (fun kv => kv.1 == lang)).map (fun kv => kv.2)).getD {})

/-- A character allowed inside a Python identifier (ASCII model). -/
def isIdentChar (c : Char) : Bool := c.isAlphanum || c == '_'

/-- Python `str.isidentifier()` for ASCII strings. -/
def isPyIdentifier (w : String) : Bool :=
  match w.toList with
  | [] => false
  | c :: rest => (c.isAlpha || c == '_') && rest.all isIdentChar

/-- The added lines of a diff (smart_commit.py:73-77):
`line[1:].strip()` for every line starting with `+` but not `+++`. -/
def addedLinesOf (diff : String) : List String :=
  ((pySplit diff "\n").filter
    (fun l => strStartsWith l "+" && !strStartsWith l "+++")).map
    (fun l => strTrim (strDrop l 1))

/-- The per-line loop of `CodeAbstraction.extract_entities`
(smart_commit.py:79-101).  The fallback branch mirrors
`parts[1].split('(')[0].split(':')[0].split()[0]`: when the final `.split()`
is empty, Python's `[0]` raises `IndexError`, modelled as `.error ()`. -/
def extractLoop (parser : ParserCfg) : List String → List String → Except Unit (List String)
  | [], acc => .ok acc.reverse
  | line :: rest, acc =>
    if parser.ignore.any (fun ig => containsSub line ig) then
      extractLoop parser rest acc
    else
      match parser.extract.find? (fun p => containsSub line p) with
      | none => extractLoop parser rest acc
      | some pat =>
        match parser.entityMatch with
        | some f =>
          match f line with
          | some name =>
            if name ≠ "" ∧ 1 < name.length then extractLoop parser rest (name :: acc)
            else extractLoop parser rest acc
          | none => extractLoop parser rest acc
        | none =>
          match pySplit line pat with
          | _ :: p1 :: _ =>
            if p1 ≠ "" then
              let s1 := (pySplit p1 "(").headD ""
              let s2 := (pySplit s1 ":").headD ""
              match pyWhitespaceSplit s2 with
              | [] => .error ()
              | w :: _ =>
                if w ≠ "" ∧ 1 < w.length ∧ isPyIdentifier w then
                  extractLoop parser rest (w :: acc)
                else extractLoop parser rest acc
            else extractLoop parser rest acc
          | _ => extractLoop parser rest acc

/-- Order-preserving dedup of strings (smart_commit.py:104-109). -/
def dedupeStrAux (seen : List String) : List String → List String
  | [] => []
  | e :: es =>
    if seen.contains e then dedupeStrAux seen es
    else e :: dedupeStrAux (e :: seen) es

/-- `CodeAbstraction.extract_entities` (smart_commit.py:62-111): extract names
from added lines, dedupe preserving order, cap at 10.  A raised Python
exception is `.error ()`. -/
def extractEntities (parsers : List (String × ParserCfg)) (filepath diff : String) :
    Except Unit (List String) :=
  let parser := lookupParser parsers (getLanguage filepath)
  match extractLoop parser (addedLinesOf diff) [] with
  | .ok es => .ok ((dedupeStrAux [] es).take 10)
  | .error e => .error e

/-! ## Concrete inputs used by the claim theorems -/

/-- The Scenario-D summary: `feat(core): update logging` with no capabilities
and empty metrics. -/
def summaryC4 : Summary :=
  { title := "feat(core): update logging", intent := some "feat" }

/-- A small changed-file list whose files all categorize as `cli`. -/
def filesC4 : List String := ["goal/cli.py", "goal/commands.py", "goal/args.py"]

/-- The crashing parser configuration for `extract_entities`: the `python`
table has `extract = ['def ']` and an empty `entity_pattern`. -/
def crashParsers : List (String × ParserCfg) :=
  [("python", { extract := ["def "], ignore := [], entityMatch := none })]

/-- Eleven unique edges: ten generic ones (touching `base`) followed by one
clean edge `x → y`. -/
def rels11 : List Rel :=
  [⟨"a1", "base", "imports"⟩, ⟨"a2", "base", "imports"⟩, ⟨"a3", "base", "imports"⟩,
   ⟨"a4", "base", "imports"⟩, ⟨"a5", "base", "imports"⟩, ⟨"a6", "base", "imports"⟩,
   ⟨"a7", "base", "imports"⟩, ⟨"a8", "base", "imports"⟩, ⟨"a9", "base", "imports"⟩,
   ⟨"a10", "base", "imports"⟩, ⟨"x", "y", "imports"⟩]

/-- Two disjoint edges, giving the chain builder two roots. -/
def relsPair : List Rel := [⟨"a", "b", "imports"⟩, ⟨"c", "d", "imports"⟩]

/-- A summary object for the heap model. -/
def objW : SummaryObj := { title := "feat(core): first second third", relAddr := 7 }

/-- A relations dict for the heap model: one generic and one clean edge. -/
def rdW : RelDict :=
  { relations := [⟨"a", "base", "imports"⟩, ⟨"a", "b", "imports"⟩], chain := "a→b" }

/-- No edge of the list is a self-loop (Bool form of the invariant). -/
def noSelfLoops (l : List Rel) : Bool :=
  l.all (fun r => r.from_ != r.to_)

/-! ## Order lemmas for `sortStrings` -/

theorem leChars_total (as : List Char) : ∀ bs, leChars as bs = true ∨ leChars bs as = true := by
  induction as with
  | nil => intro bs; left; rfl
  | cons a as ih =>
    intro bs
    cases bs with
    | nil => right; rfl
    | cons b bs =>
      by_cases hab : a.toNat < b.toNat
      · left; simp [leChars, hab]
      · by_cases hba : b.toNat < a.toNat
        · right; simp [leChars, hba]
        · rcases ih bs with h | h
          · left; simp [leChars, hab, hba, h]
          · right; simp [leChars, hab, hba, h]

theorem leChars_trans (as : List Char) : ∀ bs cs, leChars as bs = true →
    leChars bs cs = true → leChars as cs = true := by
  induction as with
  | nil => intro bs cs _ _; rfl
  | cons a as ih =>
    intro bs cs h1 h2
    cases bs with
    | nil => simp [leChars] at h1
    | cons b bs =>
      cases cs with
      | nil => simp [leChars] at h2
      | cons c cs =>
        simp only [leChars] at h1 h2 ⊢
        by_cases hab : a.toNat < b.toNat
        · by_cases hbc : b.toNat < c.toNat
          · simp [show a.toNat < c.toNat by omega]
          · by_cases hcb : c.toNat < b.toNat
            · simp [hbc, hcb] at h2
            · simp [show a.toNat < c.toNat by omega]
        · by_cases hba : b.toNat < a.toNat
          · simp [hab, hba] at h1
          · simp only [hab, hba, if_false] at h1
            by_cases hbc : b.toNat < c.toNat
            · simp [show a.toNat < c.toNat by omega]
            · by_cases hcb : c.toNat < b.toNat
              · simp [hbc, hcb] at h2
              · simp only [hbc, hcb, if_false] at h2
                simp only [show ¬ a.toNat < c.toNat by omega,
                  show ¬ c.toNat < a.toNat by omega, if_false]
                exact ih bs cs h1 h2

theorem leChars_antisymm (as : List Char) : ∀ bs, leChars as bs = true →
    leChars bs as = true → as = bs := by
  induction as with
  | nil => intro bs _ h2; cases bs with
    | nil => rfl
    | cons b bs => simp [leChars] at h2
  | cons a as ih =>
    intro bs h1 h2
    cases bs with
    | nil => simp [leChars] at h1
    | cons b bs =>
      simp only [leChars] at h1 h2
      by_cases hab : a.toNat < b.toNat
      · simp [hab, show ¬ b.toNat < a.toNat by omega] at h2
      · by_cases hba : b.toNat < a.toNat
        · simp [hab, hba] at h1
        · simp only [hab, hba, if_false] at h1 h2
          have hval : a = b :=
            Char.eq_of_val_eq (UInt32.ext (by simp only [Char.toNat] at hab hba; omega))
          subst hval
          rw [ih bs h1 h2]

instance : IsTotal String StrLe :=
  ⟨fun a b => leChars_total a.toList b.toList⟩

instance : IsTrans String StrLe :=
  ⟨fun a b c h1 h2 => leChars_trans a.toList b.toList c.toList h1 h2⟩

instance : IsAntisymm String StrLe :=
  ⟨fun a b h1 h2 => String.toList_inj.mp (leChars_antisymm a.toList b.toList h1 h2)⟩

theorem sortStrings_perm (l : List String) : (sortStrings l).Perm l :=
  List.perm_insertionSort _ _

/-- `sorted(set(l))` only depends on the elements of `l`, not their order or
multiplicity. -/
theorem sortedDedup_eq_of_perm {l1 l2 : List String} (h : l1.Perm l2) :
    sortedDedup l1 = sortedDedup l2 := by
  have p : (sortedDedup l1).Perm (sortedDedup l2) :=
    ((sortStrings_perm _).trans h.dedup).trans (sortStrings_perm _).symm
  exact List.eq_of_perm_of_sorted p
    (List.sorted_insertionSort _ _) (List.sorted_insertionSort _ _)

/-! ## Helper lemmas -/

theorem noSelfLoops_dedupeRelationsAux (l : List Rel) :
    ∀ seen, noSelfLoops (dedupeRelationsAux seen l) = true := by
  induction l with
  | nil => intro seen; rfl
  | cons r rs ih =>
    intro seen
    simp only [dedupeRelationsAux]
    by_cases hc : (!seen.contains (r.from_, r.to_) && r.from_ != r.to_) = true
    · rw [if_pos hc]
      have h2 : (r.from_ != r.to_) = true := by
        simp only [Bool.and_eq_true] at hc
        exact hc.2
      simp only [noSelfLoops, List.all_cons, h2, Bool.true_and]
      exact ih _
    · rw [if_neg hc]
      exact ih seen

theorem noSelfLoops_of_take {l : List Rel} (n : Nat) (h : noSelfLoops l = true) :
    noSelfLoops (l.take n) = true := by
  simp only [noSelfLoops, List.all_eq_true] at h ⊢
  exact fun r hr => h r (List.mem_of_mem_take hr)

theorem noSelfLoops_of_filter {l : List Rel} (p : Rel → Bool) (h : noSelfLoops l = true) :
    noSelfLoops (l.filter p) = true := by
  simp only [noSelfLoops, List.all_eq_true] at h ⊢
  exact fun r hr => h r (List.mem_filter.mp hr).1

theorem noSelfLoops_dedupeRelations (l : List Rel) :
    noSelfLoops (dedupeRelations l) = true :=
  noSelfLoops_of_take 10 (noSelfLoops_dedupeRelationsAux l [])

theorem dedupeRelations_length_le (l : List Rel) : (dedupeRelations l).length ≤ 10 :=
  List.length_take_le 10 _

/-- The filter predicate of `filterGenericNodes` is the negation of
`isGenericEdge`. -/
theorem filterGenericNodes_eq_filter_not_generic (l : List Rel) :
    filterGenericNodes l = l.filter (fun r => !isGenericEdge r) := by
  unfold filterGenericNodes isGenericEdge
  simp only [Bool.not_or]

theorem mkValidationResult_spec (E : List GateError) (W : List GateWarning)
    (F : List FixHint) :
    (mkValidationResult E W F).score =
      max 0 (min 100 (100 - 20 * ((mkValidationResult E W F).errors.length : Int) -
        5 * ((mkValidationResult E W F).warnings.length : Int))) ∧
    ((mkValidationResult E W F).valid = true ↔ (mkValidationResult E W F).errors = []) ∧
    ((mkValidationResult E W F).score = 100 ↔
      (mkValidationResult E W F).errors = [] ∧
      (mkValidationResult E W F).warnings = []) := by
  refine ⟨rfl, ?_, ?_⟩
  · cases E <;> simp [mkValidationResult]
  · simp only [mkValidationResult]
    constructor
    · intro h
      have hl : E.length = 0 ∧ W.length = 0 := by omega
      exact ⟨List.length_eq_zero.mp hl.1, List.length_eq_zero.mp hl.2⟩
    · rintro ⟨rfl, rfl⟩
      decide

theorem autoFixCore_snd (cfg : QVConfig) (s : SummaryCore) (rels : List Rel)
    (files : List String) (added deleted : Int) :
    (autoFixCore cfg s rels files added deleted).2 = autoFixCleanRelations rels := rfl

/-! ## Claim theorems -/

/-- Claim C1, counterexample: the docs rule is NOT first in the decision
order of `classify_intent_smart` — `["README.md"]` is a pure docs file list,
yet with `deleted = 1000` the classifier returns `refactor`, not `docs`,
because the churn rules run first. -/
theorem docs_rule_not_first_counterexample :
    (["README.md"].all isDocsFile = true) ∧
    classifyIntentSmart ["README.md"] [] 0 1000 = "refactor" ∧
    classifyIntentSmart ["README.md"] [] 0 1000 ≠ "docs" := by
  refine ⟨by decide, by decide, by decide⟩

/-- Claim C1, amended: for a file list in which every file is a docs file,
`classify_intent_smart` returns `docs` regardless of keyword scores and
entities, PROVIDED none of the three churn-based refactor rules fires
(`deleted < 1000`, not (`deleted ≥ 250` and deletion percentage `≥ 20`), and
net `≥ -100`).  The docs rule is consulted only after those churn rules. -/
theorem docs_rule_after_churn_rules (files entities : List String)
    (added deleted : Int)
    (hdocs : files.all isDocsFile = true)
    (h1 : deleted < 1000)
    (h2 : ¬ (250 ≤ deleted ∧ 20 ≤ deletionPct added deleted))
    (h3 : -100 ≤ added - deleted) :
    classifyIntentSmart files entities added deleted = "docs" := by
  simp only [classifyIntentSmart]
  rw [if_neg (by omega : ¬ (1000 : Int) ≤ deleted), if_neg h2,
    if_neg (by omega : ¬ added - deleted < -100), if_pos hdocs]

/-- Witness for `docs_rule_after_churn_rules` at Scenario A
(`["README.md"]`, added 40, deleted 2). -/
theorem docs_rule_after_churn_rules_witness :
    (["README.md"].all isDocsFile = true) ∧
    ¬ (250 ≤ (2 : Int) ∧ 20 ≤ deletionPct 40 2) ∧
    classifyIntentSmart ["README.md"] [] 40 2 = "docs" :=
  ⟨by decide, by decide,
   docs_rule_after_churn_rules ["README.md"] [] 40 2 (by decide) (by decide)
     (by decide) (by decide)⟩

/-- Claim C2: `deleted >= 1000` forces `classify_intent_smart` to return
`refactor` unconditionally, whatever the files, entities and added count. -/
theorem churn_forces_refactor (files entities : List String) (added deleted : Int)
    (h : 1000 ≤ deleted) :
    classifyIntentSmart files entities added deleted = "refactor" := by
  simp only [classifyIntentSmart]
  rw [if_pos h]

/-- Witness for `churn_forces_refactor`. -/
theorem churn_forces_refactor_witness :
    classifyIntentSmart ["a.py"] [] 0 1000 = "refactor" :=
  churn_forces_refactor ["a.py"] [] 0 1000 (by decide)

/-- Claim C3: for every configuration, summary and file list,
`QualityValidator.validate` returns
`score = max 0 (min 100 (100 - 20*len(errors) - 5*len(warnings)))`,
`valid` holds exactly when `errors` is empty, and `score = 100` exactly when
both `errors` and `warnings` are empty. -/
theorem validate_score_formula (cfg : QVConfig) (s : Summary) (files : List String) :
    (validate cfg s files).score =
      max 0 (min 100 (100 - 20 * ((validate cfg s files).errors.length : Int) -
        5 * ((validate cfg s files).warnings.length : Int))) ∧
    ((validate cfg s files).valid = true ↔ (validate cfg s files).errors = []) ∧
    ((validate cfg s files).score = 100 ↔
      (validate cfg s files).errors = [] ∧ (validate cfg s files).warnings = []) := by
  obtain ⟨E, W, F, h⟩ : ∃ E W F, validate cfg s files = mkValidationResult E W F :=
    ⟨_, _, _, rfl⟩
  rw [h]
  exact mkValidationResult_spec E W F

/-- Claim C4: banned-word matching is whole-word (`updated` is not flagged for
`update`), case-insensitive (`Update LOGGING` is flagged), and restricted to
the description segment (`fix` as the type token is not flagged); the title
`feat(core): update logging` fails validation with a banned-word error, and
`auto_fix` rewrites it to an architecture-aware title containing neither
banned token. -/
theorem banned_word_gate_behaviour :
    hasBannedWords bannedTitleWords "fix(core): resolve the crash" = [] ∧
    hasBannedWords bannedTitleWords "feat(core): Update LOGGING" = ["logging", "update"] ∧
    hasBannedWords bannedTitleWords "feat(core): updated" = [] ∧
    (validate {} summaryC4 filesC4).valid = false ∧
    GateError.bannedWords ["logging", "update"] ∈ (validate {} summaryC4 filesC4).errors ∧
    (autoFix {} summaryC4 filesC4 0 0).title = "refactor(core): CLI interface overhaul" ∧
    containsSub (autoFix {} summaryC4 filesC4 0 0).title "update" = false ∧
    containsSub (autoFix {} summaryC4 filesC4 0 0).title "logging" = false := by
  refine ⟨by decide, by decide, by decide, by decide, by decide, by decide,
    by decide, by decide⟩

/-- Claim C5: `extract_entities` is NOT exception-free.  With the `python`
parser table `{extract: ['def '], ignore: [], entity_pattern: ''}` and the
well-formed diff line `+def (`, the fallback word extraction evaluates
`parts[1].split('(')[0].split(':')[0].split()[0]` on an empty list and
Python raises `IndexError`; the embedding returns the corresponding error. -/
theorem extract_entities_crash_on_added_paren :
    extractEntities crashParsers "a.py" "+def (" = .error () := rfl

/-- Claim C6, counterexample: in the `generate_enhanced_summary` pipeline the
generic-node filter runs AFTER the dedupe/cap, so ten generic edges displace
the one clean edge `x → y` and the cleaned result is empty — whereas the
`auto_fix` order (filter before cap) keeps exactly the clean edge. -/
theorem generic_filter_after_cap_counterexample :
    isGenericEdge ⟨"x", "y", "imports"⟩ = false ∧
    pipelineCleanRelations rels11 = [] ∧
    autoFixCleanRelations rels11 = [⟨"x", "y", "imports"⟩] := by
  refine ⟨by decide, by decide, by decide⟩

/-- Claim C6, amended: in `auto_fix` (where generic filtering precedes the
dedupe/cap) a generic edge anywhere in the input has no effect on the cleaned
result, so it can never displace a non-generic edge; in the
`generate_enhanced_summary` pipeline the order is reversed and displacement
is possible (see the counterexample). -/
theorem generic_edges_cannot_displace_in_autofix (pre post : List Rel) (r : Rel)
    (h : isGenericEdge r = true) :
    autoFixCleanRelations (pre ++ r :: post) = autoFixCleanRelations (pre ++ post) := by
  unfold autoFixCleanRelations
  congr 1
  rw [filterGenericNodes_eq_filter_not_generic, filterGenericNodes_eq_filter_not_generic]
  simp [List.filter_append, List.filter_cons, h]

/-- Witness for `generic_edges_cannot_displace_in_autofix`. -/
theorem generic_edges_cannot_displace_in_autofix_witness :
    isGenericEdge ⟨"a", "base", "imports"⟩ = true ∧
    autoFixCleanRelations [⟨"a", "base", "imports"⟩, ⟨"a", "b", "imports"⟩] =
      autoFixCleanRelations [⟨"a", "b", "imports"⟩] :=
  ⟨by decide,
   generic_edges_cannot_displace_in_autofix [] [⟨"a", "b", "imports"⟩]
     ⟨"a", "base", "imports"⟩ (by decide)⟩

/-- Claim C7: after every cleaning pass — `dedupe_relations` itself, the
pipeline order (dedupe then generic filter), and the `auto_fix` order (generic
filter then dedupe) — the relation list has no self-loop and at most 10
edges, for every input list. -/
theorem relation_invariants_after_cleaning (rels : List Rel) :
    ((dedupeRelations rels).length ≤ 10 ∧ noSelfLoops (dedupeRelations rels) = true) ∧
    ((pipelineCleanRelations rels).length ≤ 10 ∧
      noSelfLoops (pipelineCleanRelations rels) = true) ∧
    ((autoFixCleanRelations rels).length ≤ 10 ∧
      noSelfLoops (autoFixCleanRelations rels) = true) := by
  refine ⟨⟨dedupeRelations_length_le rels, noSelfLoops_dedupeRelations rels⟩, ⟨?_, ?_⟩, ?_⟩
  · exact le_trans (List.length_filter_le _ _) (dedupeRelations_length_le rels)
  · exact noSelfLoops_of_filter _ (noSelfLoops_dedupeRelations rels)
  · exact ⟨dedupeRelations_length_le _, noSelfLoops_dedupeRelations _⟩

/-- Claim C8, counterexample: the chain string built by
`_build_relation_chain` depends on the order in which Python enumerates the
`roots` set — both `["a", "c"]` and `["c", "a"]` enumerate the same roots of
the same relation list, yet they produce different chain strings, so the
output is not independent of set iteration order. -/
theorem chain_depends_on_root_enumeration :
    List.Perm ["a", "c"] (rootsOf relsPair) ∧
    List.Perm ["c", "a"] (rootsOf relsPair) ∧
    buildRelationChain relsPair ["a", "c"] = "a→b, c→d" ∧
    buildRelationChain relsPair ["c", "a"] = "c→d, a→b" ∧
    buildRelationChain relsPair ["a", "c"] ≠ buildRelationChain relsPair ["c", "a"] := by
  refine ⟨by decide, by decide, by decide, by decide, by decide⟩

/-- Claim C8, amended: the deterministic parts of relation rendering are
genuinely order-independent — `_render_relations_ascii` sorts sources and
targets explicitly, so its output is invariant under any permutation of the
input relation list; the chain string, by contrast, depends on the
enumeration order of the roots set (see the counterexample), so detection
output is byte-identical only under a fixed set enumeration. -/
theorem ascii_render_order_invariant (rels1 rels2 : List Rel) (files : List String)
    (h : rels1.Perm rels2) :
    renderRelationsAscii rels1 files = renderRelationsAscii rels2 files := by
  unfold renderRelationsAscii
  have hemp : rels1.isEmpty = rels2.isEmpty := by
    have hlen := h.length_eq
    cases rels1 <;> cases rels2 <;> simp_all
  rw [hemp]
  by_cases he : rels2.isEmpty = true
  · rw [if_pos he, if_pos he]
  · rw [if_neg he, if_neg he]
    have hs : sortedDedup (rels1.map (fun r => r.from_)) =
        sortedDedup (rels2.map (fun r => r.from_)) :=
      sortedDedup_eq_of_perm (h.map _)
    rw [hs]
    congr 1
    congr 1
    apply List.map_congr_left
    intro s _
    have ht : adjTargets rels1 s = adjTargets rels2 s := by
      unfold adjTargets
      exact sortedDedup_eq_of_perm ((h.filter _).map _)
    rw [ht]

/-- Witness for `ascii_render_order_invariant`. -/
theorem ascii_render_order_invariant_witness :
    renderRelationsAscii [⟨"a", "b", "imports"⟩, ⟨"c", "d", "imports"⟩] [] =
      renderRelationsAscii [⟨"c", "d", "imports"⟩, ⟨"a", "b", "imports"⟩] [] :=
  ascii_render_order_invariant _ _ [] (by decide)

/-- Claim C9: `auto_fix` returns a shallow copy.  In the heap model, the
original summary object is untouched (so its `title`/`intent` keep their
values), the fixed summary shares the original's `relations` dict reference,
and through that shared dict the original now observes the cleaned
(generic-filtered, deduplicated) relation list, while the dict's other keys
(e.g. `chain`) are untouched. -/
theorem auto_fix_shallow_copy_shares_relations (cfg : QVConfig)
    (origAddr freshAddr : Nat) (sh : Nat → SummaryObj) (rh : Nat → RelDict)
    (files : List String) (added deleted : Int) (h : freshAddr ≠ origAddr) :
    ((autoFixAlloc cfg origAddr freshAddr sh rh files added deleted).1 origAddr =
      sh origAddr) ∧
    (((autoFixAlloc cfg origAddr freshAddr sh rh files added deleted).1
        freshAddr).relAddr = (sh origAddr).relAddr) ∧
    (((autoFixAlloc cfg origAddr freshAddr sh rh files added deleted).2
        ((sh origAddr).relAddr)).relations =
      autoFixCleanRelations ((rh ((sh origAddr).relAddr)).relations)) ∧
    (((autoFixAlloc cfg origAddr freshAddr sh rh files added deleted).2
        ((sh origAddr).relAddr)).chain = (rh ((sh origAddr).relAddr)).chain) := by
  refine ⟨?_, ?_, ?_, ?_⟩ <;> simp only [autoFixAlloc]
  · rw [if_neg (fun he => h he.symm)]
  · simp
  · simp [autoFixCore_snd]
  · simp

/-- Witness for `auto_fix_shallow_copy_shares_relations` on concrete heaps. -/
theorem auto_fix_shallow_copy_shares_relations_witness :
    ((autoFixAlloc {} 0 1 (fun _ => objW) (fun _ => rdW) ["m.py"] 3 0).1 0 = objW) ∧
    (((autoFixAlloc {} 0 1 (fun _ => objW) (fun _ => rdW) ["m.py"] 3 0).1 1).relAddr =
      objW.relAddr) ∧
    (((autoFixAlloc {} 0 1 (fun _ => objW) (fun _ => rdW) ["m.py"] 3 0).2
        objW.relAddr).relations = autoFixCleanRelations rdW.relations) ∧
    (((autoFixAlloc {} 0 1 (fun _ => objW) (fun _ => rdW) ["m.py"] 3 0).2
        objW.relAddr).chain = rdW.chain) :=
  auto_fix_shallow_copy_shares_relations {} 0 1 (fun _ => objW) (fun _ => rdW)
    ["m.py"] 3 0 (by decide)

/-- Claim C10: the empty invocation — no files, no entities,
`added = deleted = 0` — is classified `docs`, because the docs-only check
quantifies over all files and holds vacuously for the empty list. -/
theorem empty_changeset_classified_docs :
    classifyIntentSmart [] [] 0 0 = "docs" := by decide

end Goal
